import Mathlib

/-!
# Verification of the dendritic-spine annotation tool

A shallow embedding of the annotation core of `label_dendritic_spines.py`:
the annotation store (spine → frame → box), box commit paths (new-box draw
and edit-release), measurement derivation and upsert, snapshot save/load,
stack loading, registration, the display-normalization cache, and the
canvas/image coordinate transform.

Conventions of the embedding:
* Python `dict`s (insertion-ordered, unique keys) are association lists
  with `assocGet?` / `assocSet` / `assocErase` mirroring `d[k]`, `d[k] = v`
  and `del d[k]`.
* Image-space coordinates are `ℤ`; real-valued arithmetic (`math.sqrt`,
  zoom factors, percentiles) is modelled exactly over `ℚ`/`ℝ` rather than
  IEEE doubles.
* External code raising exceptions (`tifffile.imread`) is modelled by
  `Option`-valued inputs: `none` is a raised exception.  `register_images`
  needs no such parameter: in this program its `try` body raises
  unconditionally before reaching `pystackreg` (see its doc comment).
-/

namespace SpineTool

/-- One loaded frame: `shape = (height, width)` plus its ravelled pixel
values (`np.uint16` intensities), as produced by `load_images`. -/
structure Frame where
  height : ℕ
  width : ℕ
  pixels : List ℕ
  deriving DecidableEq, Repr

/-- A bounding box `(x1, y1, x2, y2)` in image-pixel space, as stored in
`spine_annotations`. -/
structure Box where
  x1 : ℤ
  y1 : ℤ
  x2 : ℤ
  y2 : ℤ
  deriving DecidableEq, Repr

/-- `self.pixel_to_micron = 1/7.75` (source line 42). -/
def pixel_to_micron : ℚ := 1 / 7.75

/-- `self.stability_threshold = 50` (source line 43). -/
def stability_threshold : ℤ := 50

/-- `self.available_colors` (source line 60). -/
def available_colors : List String :=
  ["red", "blue", "green", "orange", "purple", "cyan", "yellow", "pink"]

/-- One row of `measurements_df`.  The source stores the float
`length_pixels = math.sqrt((x2-x1)**2 + (y2-y1)**2)` and
`length_microns = length_pixels * pixel_to_micron`; the embedding keeps the
exact integer radicand `length_sq`, so `length_pixels = Real.sqrt length_sq`
and `length_microns = Real.sqrt length_sq * pixel_to_micron` are recovered
in theorem statements.  `stable = length_pixels < stability_threshold` is
stored via the exact equivalence `Real.sqrt n < 50 ↔ n < 2500` for `n ≥ 0`
(`math.sqrt` is correctly rounded, and `50` is exactly representable, so
the float comparison agrees with the real one on integer radicands). -/
structure MeasurementRow where
  spine_name : String
  image_idx : ℕ
  length_sq : ℤ
  stable : Bool
  deriving DecidableEq, Repr

/-- `(x2 - x1)**2 + (y2 - y1)**2`, the radicand of the diagonal length. -/
def lengthSq (b : Box) : ℤ := (b.x2 - b.x1) ^ 2 + (b.y2 - b.y1) ^ 2

/-- The measurement row computed at commit time (source lines 504-516 and
449-466): diagonal length, micron conversion and stability flag. -/
def deriveRow (spine : String) (idx : ℕ) (b : Box) : MeasurementRow :=
  { spine_name := spine
    image_idx := idx
    length_sq := lengthSq b
    stable := decide (lengthSq b < stability_threshold ^ 2) }

/-- The row-selection mask
`(df['spine_name'] == spine) & (df['image_idx'] == idx)`. -/
def keyMatches (spine : String) (idx : ℕ) (r : MeasurementRow) : Bool :=
  r.spine_name == spine && r.image_idx == idx

/-- `self.measurements_df = self.measurements_df[~mask]` (source lines
519-521, 455-457, 567-569): drop every row for the `(spine, idx)` key. -/
def removeRows (df : List MeasurementRow) (spine : String) (idx : ℕ) :
    List MeasurementRow :=
  df.filter fun r => !(keyMatches spine idx r)

/-- Drop the old row for the key, then append the new row
(`pd.concat([...])`, source lines 517-524). -/
def upsertRow (df : List MeasurementRow) (r : MeasurementRow) :
    List MeasurementRow :=
  removeRows df r.spine_name r.image_idx ++ [r]

/-- `d[k]` / `k in d` on an insertion-ordered dict. -/
def assocGet? {α : Type} {β : Type} [DecidableEq α] :
    List (α × β) → α → Option β
  | [], _ => none
  | (k, v) :: rest, a => if k = a then some v else assocGet? rest a

/-- `d[k] = v`: update in place if the key exists, else append. -/
def assocSet {α : Type} {β : Type} [DecidableEq α] :
    List (α × β) → α → β → List (α × β)
  | [], a, b => [(a, b)]
  | (k, v) :: rest, a, b =>
      if k = a then (k, b) :: rest else (k, v) :: assocSet rest a b

/-- `del d[k]`: remove the entry for the key, keeping the others' order. -/
def assocErase {α : Type} {β : Type} [DecidableEq α] :
    List (α × β) → α → List (α × β)
  | [], _ => []
  | (k, v) :: rest, a =>
      if k = a then rest else (k, v) :: assocErase rest a

/-- `self.spine_annotations : {spine_name: {image_idx: box}}`. -/
abbrev SpineMap := List (String × List (ℕ × Box))

/-- The mutable session state of `SpineAnnotationTool` restricted to the
fields the annotation core reads and writes. -/
structure ToolState where
  images : List Frame
  image_paths : List String
  current_image_idx : ℕ
  current_spine_name : String
  registration_applied : Bool
  spine_annotations : SpineMap
  spine_colors : List (String × String)
  color_index : ℕ
  measurements_df : List MeasurementRow
  global_minmax : Option (ℚ × ℚ)
  deriving DecidableEq, Repr

/-- The box actually stored by `save_annotation` (source lines 482-492):
swap so `x1 ≤ x2`, `y1 ≤ y2`, then clamp each coordinate to
`[0, width]` / `[0, height]` of the current frame. -/
def commitDrawBox (f : Frame) (px1 py1 px2 py2 : ℤ) : Box :=
  let x1 := min px1 px2
  let x2 := max px1 px2
  let y1 := min py1 py2
  let y2 := max py1 py2
  let w : ℤ := (f.width : ℤ)
  let h : ℤ := (f.height : ℤ)
  ⟨max 0 (min x1 w), max 0 (min y1 h), max 0 (min x2 w), max 0 (min y2 h)⟩

/-- Source lines 494-500: create the spine entry and assign the next
palette color (advancing `color_index`) only when the spine name is new to
`spine_annotations`; the color itself is only assigned when also absent
from `spine_colors`. -/
def ensureSpine (ann : SpineMap) (colors : List (String × String))
    (cidx : ℕ) (name : String) :
    SpineMap × List (String × String) × ℕ :=
  if (assocGet? ann name).isSome then (ann, colors, cidx)
  else
    let ann2 := assocSet ann name []
    if (assocGet? colors name).isSome then (ann2, colors, cidx)
    else
      (ann2,
       assocSet colors name
         (available_colors.getD (cidx % available_colors.length) ("gray")),
       cidx + 1)

/-- `save_annotation` (source lines 482-527): normalize and clamp the box,
create the spine/color if new, store the box for
`(current_spine_name, current_image_idx)`, and upsert the derived
measurement row. -/
def save_annotation (st : ToolState) (px1 py1 px2 py2 : ℤ) : ToolState :=
  let box := commitDrawBox (st.images.getD st.current_image_idx ⟨0, 0, []⟩)
    px1 py1 px2 py2
  let e := ensureSpine st.spine_annotations st.spine_colors st.color_index
    st.current_spine_name
  let inner := (assocGet? e.1 st.current_spine_name).getD []
  { st with
    spine_annotations :=
      assocSet e.1 st.current_spine_name
        (assocSet inner st.current_image_idx box)
    spine_colors := e.2.1
    color_index := e.2.2
    measurements_df :=
      upsertRow st.measurements_df
        (deriveRow st.current_spine_name st.current_image_idx box) }

/-- The corner/move handles of `on_canvas_drag` (source lines 389-411). -/
inductive Handle
  | tl
  | tr
  | bl
  | br
  | move
  deriving DecidableEq, Repr

/-- The editing branch of `on_canvas_drag` (source lines 389-414): apply
the drag displacement `(dx, dy)` to the captured original box according to
the held handle. -/
def applyDrag (orig : Box) (h : Handle) (dx dy : ℤ) : Box :=
  match h with
  | Handle.tl => ⟨orig.x1 + dx, orig.y1 + dy, orig.x2, orig.y2⟩
  | Handle.tr => ⟨orig.x1, orig.y1 + dy, orig.x2 + dx, orig.y2⟩
  | Handle.bl => ⟨orig.x1 + dx, orig.y1, orig.x2, orig.y2 + dy⟩
  | Handle.br => ⟨orig.x1, orig.y1, orig.x2 + dx, orig.y2 + dy⟩
  | Handle.move => ⟨orig.x1 + dx, orig.y1 + dy, orig.x2 + dx, orig.y2 + dy⟩

/-- Source line 414: during an edit drag the live box is written straight
into `spine_annotations` (no normalization, no measurement update). -/
def on_drag_edit (st : ToolState) (editing_spine : String) (orig : Box)
    (h : Handle) (dx dy : ℤ) : ToolState :=
  { st with
    spine_annotations :=
      assocSet st.spine_annotations editing_spine
        (assocSet ((assocGet? st.spine_annotations editing_spine).getD [])
          st.current_image_idx (applyDrag orig h dx dy)) }

/-- The box stored by the editing branch of `on_canvas_release` (source
lines 440-447): only the ordering swap `x1 ≤ x2`, `y1 ≤ y2` is applied —
unlike `save_annotation`, there is no clamp to the frame bounds. -/
def finalizeEditBox (b : Box) : Box :=
  ⟨min b.x1 b.x2, min b.y1 b.y2, max b.x1 b.x2, max b.y1 b.y2⟩

/-- The live box for `(spine, current_image_idx)` read back at release
time (source line 440).  During a gesture the entry always exists; the
defaults are never reached on the modelled paths. -/
def currentBox (st : ToolState) (spine : String) : Box :=
  (assocGet? ((assocGet? st.spine_annotations spine).getD [])
    st.current_image_idx).getD ⟨0, 0, 0, 0⟩

/-- The editing branch of `on_canvas_release` (source lines 438-466):
re-read the live box, normalize the ordering, store it back, and upsert
the recomputed measurement row.  `editing_spine` is `self.editing_spine`. -/
def on_release_edit (st : ToolState) (editing_spine : String) : ToolState :=
  let nb := finalizeEditBox (currentBox st editing_spine)
  { st with
    spine_annotations :=
      assocSet st.spine_annotations editing_spine
        (assocSet ((assocGet? st.spine_annotations editing_spine).getD [])
          st.current_image_idx nb)
    measurements_df :=
      upsertRow st.measurements_df
        (deriveRow editing_spine st.current_image_idx nb) }

/-- `delete_current_box` (source lines 562-572): if the current spine has
a box on the current frame, delete that inner entry (the spine key itself
stays in `spine_annotations`) and drop the matching measurement rows. -/
def delete_current_box (st : ToolState) : ToolState :=
  match assocGet? st.spine_annotations st.current_spine_name with
  | none => st
  | some inner =>
    match assocGet? inner st.current_image_idx with
    | none => st
    | some _ =>
      { st with
        spine_annotations :=
          assocSet st.spine_annotations st.current_spine_name
            (assocErase inner st.current_image_idx)
        measurements_df :=
          removeRows st.measurements_df st.current_spine_name
            st.current_image_idx }

/-- The JSON annotation snapshot (source lines 625-631).  Frame-index keys
are serialized with `str(k)` and parsed back with `int(k)`; since `str`
followed by `int` is the identity on naturals, the embedding keeps the
keys as `ℕ` throughout. -/
structure Snapshot where
  spine_annotations : SpineMap
  spine_colors : List (String × String)
  color_index : ℕ
  image_paths : List String
  deriving DecidableEq, Repr

/-- `save_annotations` (source lines 616-634): dump the store, the colors,
the palette cursor and the loaded path list. -/
def save_annotations (st : ToolState) : Snapshot :=
  { spine_annotations := st.spine_annotations
    spine_colors := st.spine_colors
    color_index := st.color_index
    image_paths := st.image_paths }

/-- The measurement-table rebuild loop of `load_annotations` (source lines
656-669): one derived row per stored `(spine, frame)` box, in store
iteration order. -/
def rebuildRows (ann : SpineMap) : List MeasurementRow :=
  (ann.map fun p => p.2.map fun q => deriveRow p.1 q.1 q.2).flatten

/-- `load_annotations` (source lines 636-672), in source order: first
overwrite `spine_annotations`, `spine_colors` and `color_index` from the
file, then — only then — compare the file's `image_paths` against the
current stack and silently `return` on a non-empty mismatching list, and
otherwise rebuild `measurements_df` from the restored boxes.  The `Bool`
result records whether the load ran to completion (the success dialog);
`false` is the silent early return. -/
def load_annotations (st : ToolState) (snap : Snapshot) : ToolState × Bool :=
  let st1 := { st with
    spine_annotations := snap.spine_annotations
    spine_colors := snap.spine_colors
    color_index := snap.color_index }
  if snap.image_paths ≠ [] ∧ snap.image_paths ≠ st1.image_paths then
    (st1, false)
  else
    ({ st1 with measurements_df := rebuildRows snap.spine_annotations }, true)

/-- Insert into a sorted list (ascending). -/
def insertSorted (x : ℕ) : List ℕ → List ℕ
  | [] => [x]
  | y :: ys => if x ≤ y then x :: y :: ys else y :: insertSorted x ys

/-- Ascending sort, used to model the order statistics of `np.percentile`. -/
def sortAsc (l : List ℕ) : List ℕ := l.foldr insertSorted []

/-- The floor of a rational, written with `Int.fdiv` on the canonical
numerator/denominator so that it evaluates by kernel reduction
(`Int.fdiv` is floor division, so this equals `⌊q⌋`). -/
def ratFloor (q : ℚ) : ℤ := Int.fdiv q.num (q.den : ℤ)

/-- `np.percentile(vals, q)` with the default linear interpolation: on the
sorted values `s` of length `n`, the rank is `h = q·(n−1)/100` and the
result interpolates between `s[⌊h⌋]` and the next element. -/
def percentileQ (vals : List ℕ) (q : ℚ) : ℚ :=
  let s := sortAsc vals
  let n := s.length
  if n = 0 then 0
  else
    let pos : ℚ := q * ((n : ℚ) - 1) / 100
    let i : ℕ := (ratFloor pos).toNat
    let frac : ℚ := pos - (i : ℚ)
    let lo : ℚ := ((s.getD i 0 : ℕ) : ℚ)
    let hi : ℚ := ((s.getD (min (i + 1) (n - 1)) 0 : ℕ) : ℚ)
    lo + frac * (hi - lo)

/-- The global display-normalization bounds (source lines 237-239): the
0.1st and 99.9th percentile over the concatenated pixels of all frames. -/
def computeGlobalMinmax (images : List Frame) : ℚ × ℚ :=
  let all := (images.map Frame.pixels).flatten
  (percentileQ all (1 / 10), percentileQ all (999 / 10))

/-- The normalization-cache slice of `update_display` (source lines
227-241): do nothing without images; compute and cache `global_minmax`
only when the cache is empty, otherwise reuse the cached bounds.  (The
actual pixel rendering is pure output and is not modelled.) -/
def update_display (st : ToolState) : ToolState :=
  if st.images = [] then st
  else
    match st.global_minmax with
    | none => { st with global_minmax := some (computeGlobalMinmax st.images) }
    | some _ => st

/-- `register_images` (source lines 188-224).  The whole body runs inside
`try` and mutates no stack/annotation state before line 216.  In this
program the body always raises at its first use of a frame:
`np.array(self.images[0].convert('L'))` (line 197) — `load_images` stores
frames as plain `numpy.uint16` arrays (line 169), which have no `.convert`
method — so the call raises `AttributeError` (`IndexError` when the stack
is empty) before the registration loop (which would raise the same way at
line 201, and needs 3-D data at line 208), before the frame replacement
(line 216), the `registration_applied` flag (line 217) and the
`update_display` call (line 219).  Every call therefore takes the
`except` branch (lines 222-224): the error dialog is shown and the state
is left unchanged.  The `Bool` is `true` for the success dialog (dead
code in this program) and `false` for the error dialog. -/
def register_images (st : ToolState) : ToolState × Bool := (st, false)

/-- The read loop of `load_images` (source lines 160-185).  Each element
of the worklist is `(path, read result)` where the result of
`tifffile.imread` + first-plane reduction + `astype(np.uint16)` is `some`
frame, and `none` models an exception raised while reading that file.  A
raised exception propagates out of the handler immediately: the loop stops
with the appends made so far kept, and none of the end-of-load resets
(`current_image_idx`, `registration_applied`, `global_minmax`,
`update_display`) run.  The `Bool` records completion. -/
def load_loop : ToolState → List (String × Option Frame) → ToolState × Bool
  | st, [] =>
    (update_display
      { st with
        current_image_idx := 0
        registration_applied := false
        global_minmax := none }, true)
  | st, (_, none) :: _ => (st, false)
  | st, (p, some f) :: rest =>
    load_loop
      { st with
        images := st.images ++ [f]
        image_paths := st.image_paths ++ [p] } rest

/-- `load_images` (source lines 144-185): `self.images` and
`self.image_paths` are cleared first (lines 157-158), then the sorted
worklist is read one file at a time. -/
def load_images (st : ToolState) (reads : List (String × Option Frame)) :
    ToolState × Bool :=
  load_loop { st with images := [], image_paths := [] } reads

/-- Python `int()` truncation toward zero applied to an exact rational. -/
def truncQ (q : ℚ) : ℤ := if 0 ≤ q then ⌊q⌋ else -⌊-q⌋

/-- `image_to_canvas_coords` (source lines 292-296):
`canvas = pan + img · zoom`. -/
def image_to_canvas_coords (pan_x pan_y : ℤ) (zoom : ℚ) (img_x img_y : ℤ) :
    ℚ × ℚ :=
  ((pan_x : ℚ) + (img_x : ℚ) * zoom, (pan_y : ℚ) + (img_y : ℚ) * zoom)

/-- `canvas_to_image_coords` (source lines 286-290):
`img = int((canvas − pan) / zoom)`. -/
def canvas_to_image_coords (pan_x pan_y : ℤ) (zoom : ℚ) (cx cy : ℚ) :
    ℤ × ℤ :=
  (truncQ ((cx - (pan_x : ℚ)) / zoom), truncQ ((cy - (pan_y : ℚ)) / zoom))

/-! ## Helper lemmas -/

theorem assocGet_assocSet_self {α : Type} {β : Type} [DecidableEq α]
    (m : List (α × β)) (k : α) (v : β) :
    assocGet? (assocSet m k v) k = some v := by
  induction m with
  | nil => simp [assocSet, assocGet?]
  | cons hd t ih =>
    obtain ⟨k1, v1⟩ := hd
    by_cases hk : k1 = k
    · simp [assocSet, assocGet?, hk]
    · simp [assocSet, assocGet?, hk, ih]

theorem countP_removeRows (df : List MeasurementRow) (s : String) (i : ℕ) :
    (removeRows df s i).countP (keyMatches s i) = 0 := by
  rw [List.countP_eq_zero]
  intro r hr
  rw [removeRows, List.mem_filter] at hr
  simpa using hr.2

theorem countP_upsertRow (df : List MeasurementRow) (r : MeasurementRow) :
    (upsertRow df r).countP (keyMatches r.spine_name r.image_idx) = 1 := by
  rw [upsertRow, List.countP_append, countP_removeRows]
  simp [List.countP_cons, keyMatches]

theorem truncQ_intCast (n : ℤ) : truncQ (n : ℚ) = n := by
  unfold truncQ
  by_cases h : (0 : ℚ) ≤ (n : ℚ)
  · simp [h, Int.floor_intCast]
  · rw [if_neg h, show (-(n : ℚ)) = ((-n : ℤ) : ℚ) by push_cast; ring,
      Int.floor_intCast]
    ring

theorem commitDrawBox_spec (f : Frame) (px1 py1 px2 py2 : ℤ) :
    let b := commitDrawBox f px1 py1 px2 py2
    0 ≤ b.x1 ∧ b.x1 ≤ b.x2 ∧ b.x2 ≤ (f.width : ℤ)
      ∧ 0 ≤ b.y1 ∧ b.y1 ≤ b.y2 ∧ b.y2 ≤ (f.height : ℤ) := by
  refine ⟨le_max_left _ _, ?_, ?_, le_max_left _ _, ?_, ?_⟩
  · exact max_le_max le_rfl (min_le_min min_le_max le_rfl)
  · exact max_le (Int.natCast_nonneg _) (min_le_right _ _)
  · exact max_le_max le_rfl (min_le_min min_le_max le_rfl)
  · exact max_le (Int.natCast_nonneg _) (min_le_right _ _)

/-! ## Claim theorems -/

/-- C5 (confirmed): for every integer image point and every view state with
zoom in `[0.1, 10.0]` and integer pan, `toImage (toScreen (x, y)) = (x, y)`:
the transform pair of `canvas_to_image_coords` / `image_to_canvas_coords`
is a strict inverse on integer image coordinates (arithmetic modelled
exactly; the truncation acts on an exactly-integral value). -/
theorem coordinate_roundtrip (pan_x pan_y x y : ℤ) (zoom : ℚ)
    (h1 : 1 / 10 ≤ zoom) (_h2 : zoom ≤ 10) :
    canvas_to_image_coords pan_x pan_y zoom
      (image_to_canvas_coords pan_x pan_y zoom x y).1
      (image_to_canvas_coords pan_x pan_y zoom x y).2 = (x, y) := by
  have hz : zoom ≠ 0 := ne_of_gt (lt_of_lt_of_le (by norm_num) h1)
  unfold canvas_to_image_coords image_to_canvas_coords
  have e1 : ((pan_x : ℚ) + (x : ℚ) * zoom - (pan_x : ℚ)) / zoom = (x : ℚ) := by
    field_simp
  have e2 : ((pan_y : ℚ) + (y : ℚ) * zoom - (pan_y : ℚ)) / zoom = (y : ℚ) := by
    field_simp
  simp only [e1, e2, truncQ_intCast]

/-- Witness for C5 at `pan = (3, -4)`, `zoom = 2`, `(x, y) = (5, -7)`. -/
theorem coordinate_roundtrip_witness :
    (1 / 10 : ℚ) ≤ 2 ∧ (2 : ℚ) ≤ 10 ∧
    canvas_to_image_coords 3 (-4) 2
      (image_to_canvas_coords 3 (-4) 2 5 (-7)).1
      (image_to_canvas_coords 3 (-4) 2 5 (-7)).2 = (5, -7) :=
  ⟨by norm_num, by norm_num,
    coordinate_roundtrip 3 (-4) 5 (-7) 2 (by norm_num) (by norm_num)⟩

/-- C8 (confirmed): committing a box for the same `(spine, frame)` key
twice with the same coordinates leaves exactly one measurement row for
that key — the second commit's table is literally the first table with the
key's rows filtered out and the single fresh row appended. -/
theorem measurement_upsert_idempotent (st : ToolState) (px1 py1 px2 py2 : ℤ) :
    let name := st.current_spine_name
    let idx := st.current_image_idx
    let box := commitDrawBox (st.images.getD idx ⟨0, 0, []⟩) px1 py1 px2 py2
    let st1 := save_annotation st px1 py1 px2 py2
    let st2 := save_annotation st1 px1 py1 px2 py2
    st2.measurements_df
        = removeRows st1.measurements_df name idx ++ [deriveRow name idx box]
      ∧ st2.measurements_df.countP (keyMatches name idx) = 1 := by
  refine ⟨rfl, ?_⟩
  exact countP_upsertRow ( save_annotation st px1 py1 px2 py2).measurements_df
    (deriveRow st.current_spine_name st.current_image_idx
      (commitDrawBox (st.images.getD st.current_image_idx ⟨0, 0, []⟩)
        px1 py1 px2 py2))

/-- C9 (confirmed): a registration call that fails at any point leaves
the frame list — and all other state — completely unmodified, and the
failure is reported (the error dialog, modelled by the `false` outcome).
In the source every mutation sits after the full registration loop
(line 216 onwards) inside the `try`, and in this program the body in fact
raises at line 197 on every call, so the `except` branch with untouched
state is the only reachable exit. -/
theorem registration_failure_atomic (st : ToolState)
    (_hfail : (register_images st).2 = false) :
    (register_images st).1 = st := rfl

/-- Witness for C9: a loaded two-frame stack whose registration call
fails. -/
theorem registration_failure_atomic_witness :
    let st : ToolState :=
      ⟨[⟨1, 1, [0]⟩, ⟨1, 1, [7]⟩], ["a.tif", "b.tif"], 0, "spine_1", false,
        [], [], 0, [], none⟩
    (register_images st).2 = false ∧ (register_images st).1 = st :=
  ⟨rfl, registration_failure_atomic _ rfl⟩

/-- C1 (amended): every committed box satisfies the ordering invariant
`x1 ≤ x2 ∧ y1 ≤ y2`, but only boxes committed by the new-box drawing path
(`save_annotation`) are additionally clamped to non-negative coordinates
within the current frame's `[0, width] × [0, height]`; a box committed by
releasing an edit gesture (`on_canvas_release`, editing branch) is only
re-ordered and can lie outside the frame bounds. -/
theorem commit_box_normalization :
    (∀ (st : ToolState) (px1 py1 px2 py2 : ℤ),
      let f := st.images.getD st.current_image_idx ⟨0, 0, []⟩
      let b := commitDrawBox f px1 py1 px2 py2
      assocGet?
          ((assocGet? ( save_annotation st px1 py1 px2 py2).spine_annotations
              st.current_spine_name).getD [])
          st.current_image_idx = some b
        ∧ 0 ≤ b.x1 ∧ b.x1 ≤ b.x2 ∧ b.x2 ≤ (f.width : ℤ)
        ∧ 0 ≤ b.y1 ∧ b.y1 ≤ b.y2 ∧ b.y2 ≤ (f.height : ℤ))
    ∧ (∀ (st : ToolState) (spine : String),
      let b := finalizeEditBox (currentBox st spine)
      assocGet?
          ((assocGet? (on_release_edit st spine).spine_annotations
              spine).getD [])
          st.current_image_idx = some b
        ∧ b.x1 ≤ b.x2 ∧ b.y1 ≤ b.y2) := by
  constructor
  · intro st px1 py1 px2 py2
    refine ⟨?_, commitDrawBox_spec _ px1 py1 px2 py2⟩
    simp [ save_annotation, assocGet_assocSet_self]
  · intro st spine
    refine ⟨?_, min_le_max, min_le_max⟩
    simp [on_release_edit, assocGet_assocSet_self]

/-- C1 is false as stated: committing via an edit gesture on the move
handle stores an unclamped box.  Dragging the box `(0,0,10,10)` on a 20×20
frame by `(-5,-5)` and releasing commits `(-5,-5,5,5)`, whose coordinates
are negative. -/
theorem edit_commit_not_clamped_cex :
    let st : ToolState :=
      ⟨[⟨20, 20, []⟩], ["a.tif"], 0, "spine_1", false,
        [("spine_1", [(0, ⟨0, 0, 10, 10⟩)])], [("spine_1", "red")], 1,
        [deriveRow ("spine_1") 0 ⟨0, 0, 10, 10⟩], none⟩
    let st2 := on_release_edit
      (on_drag_edit st ("spine_1") ⟨0, 0, 10, 10⟩ Handle.move (-5) (-5))
      ("spine_1")
    assocGet? ((assocGet? st2.spine_annotations ("spine_1")).getD []) 0
        = some ⟨-5, -5, 5, 5⟩
      ∧ ¬(0 ≤ (-5 : ℤ)) := by
  exact ⟨by decide, by decide⟩

/-- C2 (code bug): `load_annotations` overwrites `spine_annotations`,
`spine_colors` and `color_index` from the file *before* comparing the
stored `image_paths` against the current stack, and the mismatch branch is
a bare `return`: at a mismatching snapshot the in-memory annotation store
is replaced while the measurement table keeps its old (now inconsistent)
rows, and no mismatch dialog is shown — contradicting the intended
refuse-without-partial-merge behavior the path check exists for. -/
theorem load_mismatch_partial_overwrite :
    let st : ToolState :=
      ⟨[⟨20, 20, []⟩], ["a.tif"], 0, "spine_1", false,
        [("spine_1", [(0, ⟨0, 0, 10, 10⟩)])], [("spine_1", "red")], 1,
        [deriveRow ("spine_1") 0 ⟨0, 0, 10, 10⟩], none⟩
    let snap : Snapshot :=
      ⟨[("spine_9", [(0, ⟨1, 1, 2, 2⟩)])], [("spine_9", "blue")], 3,
        ["b.tif"]⟩
    let r := load_annotations st snap
    r.2 = false
      ∧ r.1.spine_annotations = snap.spine_annotations
      ∧ r.1.spine_annotations ≠ st.spine_annotations
      ∧ r.1.spine_colors = snap.spine_colors
      ∧ r.1.color_index = snap.color_index
      ∧ r.1.measurements_df = st.measurements_df := by
  refine ⟨by decide, by decide, by decide, by decide, by decide, by decide⟩

/-- C3 (confirmed): every derived measurement row satisfies
`length_pixels = hypot (x2−x1) (y2−y1)` exactly (the stored radicand is
exactly `(x2−x1)² + (y2−y1)²`, and `length_microns` is by construction
`length_pixels · pixel_to_micron`), and
`stable = (length_pixels < stability_threshold)`; for the box
`(10,10,50,50)` with `pixel_to_micron = 1/7.75` and threshold `50`,
`length_pixels = √3200 ≈ 56.57`, `length_microns ≈ 7.30`, and
`stable = False`. -/
theorem measurement_derivation_correct :
    (∀ (s : String) (i : ℕ) (b : Box),
        (deriveRow s i b).length_sq = (b.x2 - b.x1) ^ 2 + (b.y2 - b.y1) ^ 2
      ∧ ((deriveRow s i b).stable = true ↔
          Real.sqrt (((deriveRow s i b).length_sq : ℤ) : ℝ)
            < ((stability_threshold : ℤ) : ℝ)))
    ∧ |Real.sqrt ((lengthSq ⟨10, 10, 50, 50⟩ : ℤ) : ℝ) - 56.57| < 0.01
    ∧ |Real.sqrt ((lengthSq ⟨10, 10, 50, 50⟩ : ℤ) : ℝ)
        * ((pixel_to_micron : ℚ) : ℝ) - 7.30| < 0.01
    ∧ (deriveRow ("spine_1") 0 ⟨10, 10, 50, 50⟩).stable = false := by
  have h32 : ((lengthSq ⟨10, 10, 50, 50⟩ : ℤ) : ℝ) = 3200 := by
    norm_num [lengthSq]
  have hlow : (56.56 : ℝ) < Real.sqrt 3200 := by
    rw [show (3200 : ℝ) = 3200 from rfl]
    rw [Real.lt_sqrt (by norm_num)]
    norm_num
  have hhigh : Real.sqrt 3200 < 56.58 := by
    rw [Real.sqrt_lt' (by norm_num)]
    norm_num
  refine ⟨?_, ?_, ?_, ?_⟩
  · intro s i b
    refine ⟨rfl, ?_⟩
    have rkey : (Real.sqrt ((lengthSq b : ℤ) : ℝ)
          < ((stability_threshold : ℤ) : ℝ)) ↔ lengthSq b < 2500 := by
      have h50 : ((stability_threshold : ℤ) : ℝ) = 50 := by
        norm_num [stability_threshold]
      rw [h50, Real.sqrt_lt' (by norm_num)]
      constructor
      · intro h
        have h4 : ((lengthSq b : ℤ) : ℝ) < 2500 := by nlinarith [h]
        exact_mod_cast h4
      · intro h
        have h4 : ((lengthSq b : ℤ) : ℝ) < 2500 := by exact_mod_cast h
        nlinarith [h4]
    have key : ((deriveRow s i b).stable = true) ↔ lengthSq b < 2500 := by
      simp only [deriveRow, decide_eq_true_eq]
      norm_num [stability_threshold]
    have heq : (((deriveRow s i b).length_sq : ℤ) : ℝ)
        = ((lengthSq b : ℤ) : ℝ) := rfl
    rw [key, heq]
    exact rkey.symm
  · rw [h32, abs_sub_lt_iff]
    constructor <;> nlinarith [hlow, hhigh]
  · rw [h32, abs_sub_lt_iff]
    have hpm : ((pixel_to_micron : ℚ) : ℝ) = 4 / 31 := by
      norm_num [pixel_to_micron]
    rw [hpm]
    constructor <;> nlinarith [hlow, hhigh]
  · decide

theorem load_loop_fail (st : ToolState) (pre : List (String × Frame))
    (p : String) (rest : List (String × Option Frame)) :
    load_loop st (pre.map (fun q => (q.1, some q.2)) ++ (p, none) :: rest)
      = ({ st with
            images := st.images ++ pre.map Prod.snd
            image_paths := st.image_paths ++ pre.map Prod.fst }, false) := by
  induction pre generalizing st with
  | nil => simp [load_loop]
  | cons hd t ih =>
    obtain ⟨ph, fh⟩ := hd
    simp only [List.map_cons, List.cons_append, load_loop, List.append_eq]
    rw [ih]
    simp [List.append_assoc]

/-- C4 (amended): a file whose read raises aborts the remainder of the
load (no later file is read and none of the end-of-load resets run), but
the previous stack was already cleared at the start of `load_images` and
the frames read before the failure stay appended: the resulting state
holds the partial prefix of successfully read frames and paths, not the
previously loaded stack. -/
theorem load_failure_keeps_partial_stack (st : ToolState)
    (pre : List (String × Frame)) (p : String)
    (rest : List (String × Option Frame)) :
    load_images st (pre.map (fun q => (q.1, some q.2)) ++ (p, none) :: rest)
      = ({ st with
            images := pre.map Prod.snd
            image_paths := pre.map Prod.fst }, false) := by
  unfold load_images
  rw [load_loop_fail]
  simp

/-- C4 is false as stated: with one frame already loaded, reloading from a
folder whose second file is unreadable leaves a one-frame partial stack
(the first new file), not the previous stack — `load_images` clears
`self.images` before reading and nothing restores it on error. -/
theorem load_abort_partial_stack_cex :
    let stPrev : ToolState :=
      ⟨[⟨20, 20, [3]⟩], ["old.tif"], 0, "spine_1", false, [], [], 0, [],
        none⟩
    let r := load_images stPrev
      [("p1.tif", some ⟨10, 10, [1]⟩), ("p2.tif", none)]
    r.2 = false
      ∧ r.1.images = [⟨10, 10, [1]⟩]
      ∧ r.1.images ≠ stPrev.images
      ∧ r.1.image_paths = ["p1.tif"]
      ∧ r.1.image_paths ≠ stPrev.image_paths := by
  exact ⟨by decide, by decide, by decide, by decide, by decide⟩

/-- C6 (confirmed): for any store whose measurement table is in sync with
its boxes (the invariant every commit path maintains), saving a snapshot
and loading it back against the same image path list reproduces the
identical store — same spine/box map, same colors, same palette counter —
and a measurement table fully recomputed from the restored boxes (never
read from the file), equal to the original up to row order. -/
theorem snapshot_roundtrip (st : ToolState)
    (hsync : st.measurements_df.Perm (rebuildRows st.spine_annotations)) :
    let r := load_annotations st ( save_annotations st)
    r.2 = true
      ∧ r.1.spine_annotations = st.spine_annotations
      ∧ r.1.spine_colors = st.spine_colors
      ∧ r.1.color_index = st.color_index
      ∧ r.1.measurements_df = rebuildRows st.spine_annotations
      ∧ r.1.measurements_df.Perm st.measurements_df := by
  refine ⟨?_, ?_, ?_, ?_, ?_, ?_⟩
  · simp [load_annotations, save_annotations]
  · simp [load_annotations, save_annotations]
  · simp [load_annotations, save_annotations]
  · simp [load_annotations, save_annotations]
  · simp [load_annotations, save_annotations]
  · simp only [load_annotations, save_annotations]
    simpa using hsync.symm

/-- Witness for C6: a one-spine, one-box store with its synced table. -/
theorem snapshot_roundtrip_witness :
    let st : ToolState :=
      ⟨[⟨20, 20, [3]⟩], ["a.tif"], 0, "spine_1", false,
        [("spine_1", [(0, ⟨1, 2, 3, 4⟩)])], [("spine_1", "red")], 1,
        [deriveRow ("spine_1") 0 ⟨1, 2, 3, 4⟩], none⟩
    st.measurements_df.Perm (rebuildRows st.spine_annotations)
    ∧ (let r := load_annotations st ( save_annotations st)
       r.2 = true
       ∧ r.1.spine_annotations = st.spine_annotations
       ∧ r.1.spine_colors = st.spine_colors
       ∧ r.1.color_index = st.color_index
       ∧ r.1.measurements_df = rebuildRows st.spine_annotations
       ∧ r.1.measurements_df.Perm st.measurements_df) := by
  exact ⟨by decide, snapshot_roundtrip _ (by decide)⟩

/-- C7 (code bug): the claimed invalidate-on-success can never occur
because no registration pass ever succeeds — every `register_images` call
raises at `images[0].convert('L')` and returns through the `except`
branch with the state untouched.  In particular the cached global
display-normalization bounds survive every registration call: evaluated
at a freshly rendered one-frame stack with cached bounds, the call fails
and leaves the state — including the cache — unchanged, and the next
render reuses the stale cache instead of recomputing (only `load_images`
ever resets `global_minmax`). -/
theorem registration_never_invalidates_cache :
    (∀ st : ToolState, register_images st = (st, false))
    ∧ (let st : ToolState :=
        ⟨[⟨1, 1, [5]⟩], ["a.tif"], 0, "spine_1", false, [], [], 0, [],
          some (3, 9)⟩
       (register_images st).2 = false
         ∧ (register_images st).1 = st
         ∧ (register_images st).1.global_minmax = some (3, 9)
         ∧ update_display (register_images st).1 = (register_images st).1) :=
  ⟨fun _ => rfl, rfl, rfl, rfl, rfl⟩

/-- C10 (confirmed): deleting the only box of a spine removes that
`(spine, frame)` box entry and its measurement rows, but the spine's name
remains a key of `spine_annotations` (so it still appears in the spine
list) with its color assignment untouched, and a box subsequently
committed for the same name takes the spine-already-known branch: it
reuses the same color and leaves the palette counter unchanged. -/
theorem delete_box_keeps_spine_color (st : ToolState) (b : Box) (c : String)
    (hann : assocGet? st.spine_annotations st.current_spine_name
        = some [(st.current_image_idx, b)])
    (hcol : assocGet? st.spine_colors st.current_spine_name = some c)
    (px1 py1 px2 py2 : ℤ) :
    assocGet? (delete_current_box st).spine_annotations
        st.current_spine_name = some []
      ∧ (delete_current_box st).measurements_df.countP
          (keyMatches st.current_spine_name st.current_image_idx) = 0
      ∧ (delete_current_box st).spine_colors = st.spine_colors
      ∧ (delete_current_box st).color_index = st.color_index
      ∧ assocGet? ( save_annotation (delete_current_box st)
          px1 py1 px2 py2).spine_colors st.current_spine_name = some c
      ∧ ( save_annotation (delete_current_box st)
          px1 py1 px2 py2).color_index = st.color_index := by
  have hdel : delete_current_box st
      = { st with
          spine_annotations :=
            assocSet st.spine_annotations st.current_spine_name []
          measurements_df :=
            removeRows st.measurements_df st.current_spine_name
              st.current_image_idx } := by
    unfold delete_current_box
    rw [hann]
    simp [assocGet?, assocErase]
  rw [hdel]
  refine ⟨assocGet_assocSet_self _ _ _, countP_removeRows _ _ _, rfl, rfl,
    ?_, ?_⟩
  · simp [ save_annotation, ensureSpine, assocGet_assocSet_self, hcol]
  · simp [ save_annotation, ensureSpine, assocGet_assocSet_self]

/-- Witness for C10: one spine with a single box on frame 0, deleted and
then redrawn. -/
theorem delete_box_keeps_spine_color_witness :
    let st : ToolState :=
      ⟨[⟨20, 20, []⟩], ["a.tif"], 0, "spine_1", false,
        [("spine_1", [(0, ⟨1, 1, 2, 2⟩)])], [("spine_1", "red")], 1,
        [deriveRow ("spine_1") 0 ⟨1, 1, 2, 2⟩], none⟩
    (assocGet? st.spine_annotations st.current_spine_name
        = some [(st.current_image_idx, ⟨1, 1, 2, 2⟩)])
    ∧ (assocGet? st.spine_colors st.current_spine_name = some ("red"))
    ∧ (assocGet? (delete_current_box st).spine_annotations
          st.current_spine_name = some []
      ∧ (delete_current_box st).measurements_df.countP
          (keyMatches st.current_spine_name st.current_image_idx) = 0
      ∧ (delete_current_box st).spine_colors = st.spine_colors
      ∧ (delete_current_box st).color_index = st.color_index
      ∧ assocGet? ( save_annotation (delete_current_box st)
          3 3 6 6).spine_colors st.current_spine_name = some ("red")
      ∧ ( save_annotation (delete_current_box st)
          3 3 6 6).color_index = st.color_index) := by
  refine ⟨by decide, by decide, ?_⟩
  exact delete_box_keeps_spine_color _ ⟨1, 1, 2, 2⟩ ("red") (by decide)
    (by decide) 3 3 6 6

end SpineTool
